import Mathlib

/-!
Verification of the music21 input interface (muspy/inputs/music21.py).

The Python module converts a music21 score (a hierarchical, continuous-time
symbolic music representation) into muspy's flat tick-based `Music` document.
We give a shallow embedding of the module: continuous musical offsets and
durations (quarter-note units) are modelled as exact rationals, tick values as
integers, and the fallible pieces of the code (list indexing, division by
zero inside `parse_beats`) as `Option`-valued functions where `none` models a
raised exception.  The inputs that the module reads off music21 objects
(flattened event streams, measure offset maps, metronome mark boundaries,
instrument descriptors, instrument partitions) are modelled as explicit data,
since music21 itself is an external collaborator.

Rational arithmetic is spelled with the executable operations `qmul`, `qadd`,
`qsub`, `qdiv` below, which are proved equal to `ℚ` multiplication, addition,
subtraction and division; they are used so that every definition evaluates
inside the kernel on concrete inputs.
-/

/-- Multiplication on `ℚ` through `Rat.divInt` (proved equal to `*` in
`qmul_eq_mul`). -/
def qmul (a b : ℚ) : ℚ :=
  Rat.divInt (a.num * b.num) ((a.den : ℤ) * (b.den : ℤ))

/-- Addition on `ℚ` through `Rat.divInt` (proved equal to `+` in
`qadd_eq_add`). -/
def qadd (a b : ℚ) : ℚ :=
  Rat.divInt (a.num * (b.den : ℤ) + b.num * (a.den : ℤ)) ((a.den : ℤ) * (b.den : ℤ))

/-- Subtraction on `ℚ` through `Rat.divInt` (proved equal to `-` in
`qsub_eq_sub`). -/
def qsub (a b : ℚ) : ℚ :=
  Rat.divInt (a.num * (b.den : ℤ) - b.num * (a.den : ℤ)) ((a.den : ℤ) * (b.den : ℤ))

/-- Division on `ℚ` through `Rat.divInt` (proved equal to `/` in
`qdiv_eq_div`; division by zero yields zero, and every division-by-zero site
of the Python source is separately guarded where it models an exception). -/
def qdiv (a b : ℚ) : ℚ :=
  Rat.divInt (a.num * (b.den : ℤ)) ((a.den : ℤ) * b.num)

/-- Python's built-in `round` (round half to even) evaluated on an exact
rational, used for every `round(...)` call site of the module. -/
def pyRound (q : ℚ) : ℤ :=
  let f := Rat.floor q
  let frac := qsub q ((f : ℤ) : ℚ)
  if frac < Rat.divInt 1 2 then f
  else if Rat.divInt 1 2 < frac then f + 1
  else if f % 2 = 0 then f else f + 1

/-- muspy's library-wide default tick resolution (`DEFAULT_RESOLUTION = 24`). -/
def DEFAULT_RESOLUTION : ℤ := 24

/-- muspy `Tempo` record as constructed by `parse_tempos`. -/
structure Tempo where
  time : ℤ
  qpm : ℚ
deriving DecidableEq

/-- muspy `KeySignature` record as constructed by `parse_key_signatures`:
`root`/`mode` are set only when the annotation is a full `Key`. -/
structure KeySignature where
  time : ℤ
  root : Option ℤ
  mode : Option String
  fifths : ℤ
deriving DecidableEq

/-- muspy `TimeSignature` record as constructed by `parse_time_signatures`. -/
structure TimeSignature where
  time : ℤ
  numerator : ℤ
  denominator : ℤ
deriving DecidableEq

/-- muspy `Beat` record as constructed by `parse_beats`. -/
structure Beat where
  time : ℤ
  is_downbeat : Bool
deriving DecidableEq

/-- muspy `Note` record as constructed by `parse_notes_and_chords`. -/
structure Note where
  time : ℤ
  pitch : ℤ
  duration : ℤ
  velocity : Option ℤ
deriving DecidableEq

/-- muspy `Chord` record as constructed by `parse_notes_and_chords`. -/
structure Chord where
  time : ℤ
  pitches : List ℤ
  duration : ℤ
  velocity : Option ℤ
deriving DecidableEq

/-- muspy `Track` record as constructed by `parse_track`. -/
structure Track where
  program : ℤ
  is_drum : Bool
  name : Option String
  notes : List Note
  chords : List Chord
deriving DecidableEq

/-- muspy `Metadata` record as constructed by `parse_metadata`. -/
structure Metadata where
  title : Option String
  creators : List String
  copyright : Option String
deriving DecidableEq

/-- muspy `Music` document as constructed by `from_music21_score`. -/
structure Music where
  metadata : Option Metadata
  resolution : ℤ
  tempos : List Tempo
  key_signatures : List KeySignature
  time_signatures : List TimeSignature
  beats : List Beat
  tracks : List Track
deriving DecidableEq

/-- One event of a flattened music21 `notesAndRests` stream.  A rest is
neither a note nor a chord (`item.isNote`/`item.isChord` both false); a note
carries one MIDI pitch and an optional tie marker (`item.tie.type` is the
string payload); a chord carries the pitches of its constituent notes in
source order and, like notes, may carry a tie marker. -/
inductive StreamItem
  | rest (offset quarterLength : ℚ) (isGrace : Bool)
  | note (offset quarterLength : ℚ) (velocity : Option ℚ) (isGrace : Bool)
      (pitch : ℤ) (tie : Option String)
  | chord (offset quarterLength : ℚ) (velocity : Option ℚ) (isGrace : Bool)
      (pitches : List ℤ) (tie : Option String)
deriving DecidableEq

/-- The instrument descriptor music21's `part.getInstrument()` exposes. -/
structure Instrument where
  midiProgram : Option ℤ
  midiChannel : Option ℤ
deriving DecidableEq

/-- A music21 `Part` as consumed by `parse_track`: its flattened
`notesAndRests` stream, its instrument descriptor and its declared name. -/
structure M21Part where
  notesAndRests : List StreamItem
  instrument : Instrument
  partName : Option String
deriving DecidableEq

/-- A music21 `Part` together with the result of the external
`partitionByInstrument` collaborator on it.  An empty `partitioned` list
models the falsy case (`if not instruments`); a non-empty list models a
partition into per-instrument sub-parts. -/
structure M21PartP where
  self : M21Part
  partitioned : List M21Part
deriving DecidableEq

/-- The metadata object a music21 stream exposes: its title, the name lists
of its contributors, and the key/value items reported by
`metadata.all(skipContributors=True)`. -/
structure M21MetadataObj where
  title : Option String
  contributorNames : List (List String)
  items : List (String × String)
deriving DecidableEq

/-- A key or key-signature annotation of the flattened stream: either a full
`Key` (with a tonic pitch class, a mode and a sharp count) or a bare
`KeySignature` (sharp count only). -/
inductive KSItem
  | key (offset : ℚ) (tonicPitchClass : ℤ) (mode : String) (sharps : ℤ)
  | signature (offset : ℚ) (sharps : ℤ)
deriving DecidableEq

/-- A music21 `Score` as consumed by `from_music21_score`: its metadata
object, its parts (each with its instrument partition), the
`metronomeMarkBoundaries()` triples (start, end, quarter BPM of the mark),
its key/key-signature annotations, its explicit time-signature annotations
(offset, numerator, denominator) and the keys of its `measureOffsetMap()`. -/
structure M21Score where
  meta : Option M21MetadataObj
  parts : List M21PartP
  metronomeMarkBoundaries : List (ℚ × ℚ × ℚ)
  keySignatureItems : List KSItem
  timeSignatureItems : List (ℚ × ℤ × ℤ)
  measureOffsets : List ℚ
deriving DecidableEq

/-- Model of accumulating records into a Python `set` and then applying
`sorted(..., key=attrgetter("time"))`: duplicates (full structural equality)
collapse to one entry, then the survivors are stably sorted by time. -/
def dedupSortByTime {α : Type} [DecidableEq α] (time : α → ℤ) (l : List α) : List α :=
  (l.dedup).insertionSort (fun a b => time a ≤ time b)

/-- `parse_metadata`: title, all contributor names, and the last item tagged
"copyright" of the stream's metadata object (or `none` when the stream has no
metadata). -/
def parse_metadata (meta : Option M21MetadataObj) : Option Metadata :=
  match meta with
  | none => none
  | some md =>
      some { title := md.title
             creators := md.contributorNames.flatten
             copyright := ((md.items.filter (fun it => it.1 == "copyright")).map
               (fun it => it.2)).getLast? }

/-- `parse_tempos`: one `Tempo` per `metronomeMarkBoundaries()` triple, at the
rounded start tick with the mark's quarter BPM, deduplicated and sorted. -/
def parse_tempos (boundaries : List (ℚ × ℚ × ℚ)) (resolution : ℤ) : List Tempo :=
  dedupSortByTime Tempo.time
    (boundaries.map (fun b =>
      { time := pyRound (qmul b.1 ((resolution : ℤ) : ℚ)), qpm := b.2.2 }))

/-- `parse_key_signatures`: a fully populated record for a `Key` annotation,
a fifths-only record for a bare `KeySignature`, deduplicated and sorted. -/
def parse_key_signatures (items : List KSItem) (resolution : ℤ) : List KeySignature :=
  dedupSortByTime KeySignature.time (items.map (fun item =>
    match item with
    | .key offset tonicPitchClass mode sharps =>
        { time := pyRound (qmul offset ((resolution : ℤ) : ℚ)),
          root := some tonicPitchClass, mode := some mode, fifths := sharps }
    | .signature offset sharps =>
        { time := pyRound (qmul offset ((resolution : ℤ) : ℚ)),
          root := none, mode := none, fifths := sharps }))

/-- Modelled from the spec: music21's `Stream.getTimeSignatures()` (external
collaborator, not part of the repository source), which returns the stream's
explicit time-signature annotations and, for a score with none, a single
synthesized default 4/4 entry at offset 0. -/
def getTimeSignatures (score : M21Score) : List (ℚ × ℤ × ℤ) :=
  if score.timeSignatureItems.isEmpty then [(0, 4, 4)] else score.timeSignatureItems

/-- `parse_time_signatures`: one `TimeSignature` per annotation returned by
`getTimeSignatures`, at the rounded offset tick, deduplicated and sorted. -/
def parse_time_signatures (score : M21Score) (resolution : ℤ) : List TimeSignature :=
  dedupSortByTime TimeSignature.time ((getTimeSignatures score).map (fun item =>
    { time := pyRound (qmul item.1 ((resolution : ℤ) : ℚ)), numerator := item.2.1,
      denominator := item.2.2 }))

/-- `numpy.arange(start, stop, step)` over exact rationals: the values
`start + k * step` for `k < ⌈(stop - start) / step⌉`. -/
def np_arange (start stop step : ℚ) : List ℚ :=
  if step = 0 then []
  else (List.range (Rat.ceil (qdiv (qsub stop start) step)).toNat).map
    (fun k => qadd start (qmul ((k : ℕ) : ℚ) step))

/-- `beat_resolution = resolution / (time_sign.denominator / 4)` of
`parse_beats` (a Python float division; exact here). -/
def beatResolutionOf (time_sign : TimeSignature) (resolution : ℤ) : ℚ :=
  qdiv ((resolution : ℤ) : ℚ) (qdiv ((time_sign.denominator : ℤ) : ℚ) 4)

/-- The beats of one measure of `parse_beats`: every `beat_resolution`-spaced
tick from the measure start up to (excluding) `endTick`, the beat at offset
index `j` being a downbeat iff `j % numerator == 0`.  `none` models the
Python exceptions: division by zero when the denominator is 0, `np.arange`
with step 0, and `j % 0` when the numerator is 0 and the range is
non-empty. -/
def measureBeats (time_sign : TimeSignature) (resolution : ℤ) (start : ℤ)
    (endTick : ℚ) : Option (List Beat) :=
  if qdiv ((time_sign.denominator : ℤ) : ℚ) 4 = 0 then none
  else if beatResolutionOf time_sign resolution = 0 then none
  else if time_sign.numerator = 0 ∧
      np_arange ((start : ℤ) : ℚ) endTick (beatResolutionOf time_sign resolution) ≠ []
    then none
  else some ((np_arange ((start : ℤ) : ℚ) endTick
      (beatResolutionOf time_sign resolution)).enum.map
    (fun jt => { time := pyRound jt.2,
                 is_downbeat := ((jt.1 : ℕ) : ℤ) % time_sign.numerator == 0 }))

/-- The span end of the measure starting at `downbeats[dIdx]`: the next
measure start, or for the last measure the start plus one full bar of the
governing signature. -/
def measureEnd (downbeats : List ℤ) (dIdx : ℕ) (time_sign : TimeSignature)
    (resolution : ℤ) (start : ℤ) : ℚ :=
  if dIdx < downbeats.length - 1 then ((downbeats.getD (dIdx + 1) 0 : ℤ) : ℚ)
  else qadd ((start : ℤ) : ℚ)
    (qmul (beatResolutionOf time_sign resolution) ((time_sign.numerator : ℤ) : ℚ))

/-- The `while downbeat_idx < len(downbeats)` loop of `parse_beats`.  The
cursor-advance test mirrors the source exactly: it compares the current
downbeat with `time_signatures[time_sign_idx].time` (the *current* entry's
activation time).  The fuel argument only bounds the number of loop
iterations; `parse_beats` supplies enough fuel for the loop to run to
completion, since `downbeat_idx` and `time_sign_idx` each only ever
increase.  `none` models a raised exception (in particular the `IndexError`
of `time_signatures[time_sign_idx]` on an empty list). -/
def parse_beats_go (downbeats : List ℤ) (time_signatures : List TimeSignature)
    (resolution : ℤ) : ℕ → ℕ → ℕ → Option (List Beat)
  | 0, _, _ => none
  | fuel + 1, downbeat_idx, time_sign_idx =>
    if hd : downbeat_idx < downbeats.length then
      if time_sign_idx < time_signatures.length - 1 ∧
          (time_signatures.getD time_sign_idx ⟨0, 0, 0⟩).time ≤ downbeats[downbeat_idx] then
        parse_beats_go downbeats time_signatures resolution fuel downbeat_idx
          (time_sign_idx + 1)
      else
        (time_signatures[time_sign_idx]?).bind (fun time_sign =>
          (measureBeats time_sign resolution downbeats[downbeat_idx]
              (measureEnd downbeats downbeat_idx time_sign resolution
                downbeats[downbeat_idx])).bind (fun mbs =>
            (parse_beats_go downbeats time_signatures resolution fuel
                (downbeat_idx + 1) time_sign_idx).map (fun rest => mbs ++ rest)))
    else some []

/-- The sorted rounded measure-start ticks of `parse_beats`. -/
def downbeatsOf (measureOffsets : List ℚ) (resolution : ℤ) : List ℤ :=
  (measureOffsets.map (fun offset => pyRound (qmul offset ((resolution : ℤ) : ℚ)))).insertionSort
    (fun a b => a ≤ b)

/-- `parse_beats`: the beat grid synthesized from the measure-start offsets
(the keys of the stream's `measureOffsetMap()`) and the sorted time-signature
list. -/
def parse_beats (measureOffsets : List ℚ) (time_signatures : List TimeSignature)
    (resolution : ℤ) : Option (List Beat) :=
  parse_beats_go (downbeatsOf measureOffsets resolution) time_signatures resolution
    ((downbeatsOf measureOffsets resolution).length + time_signatures.length + 1) 0 0

/-- The state threaded through the event loop of `parse_notes_and_chords`:
the accumulated notes and chords and the open-ties table mapping a pitch to
the index of its in-progress `Note`. -/
structure PNCState where
  notes : List Note
  chords : List Chord
  ties : ℤ → Option ℕ

/-- `ties[pitch] = idx`. -/
def tiesInsert (ties : ℤ → Option ℕ) (pitch : ℤ) (idx : ℕ) : ℤ → Option ℕ :=
  fun x => if x = pitch then some idx else ties x

/-- `del ties[pitch]`. -/
def tiesErase (ties : ℤ → Option ℕ) (pitch : ℤ) : ℤ → Option ℕ :=
  fun x => if x = pitch then none else ties x

/-- `item.tie and (item.tie.type == "start" or item.tie.type == "continue")`. -/
def isOutgoingTie (tie : Option String) : Bool :=
  match tie with
  | some t => t == "start" || t == "continue"
  | none => false

/-- `notes[note_idx].duration += duration` (the index is always in range when
the open-ties table is consulted, since the notes list only ever grows). -/
def extendDuration : List Note → ℕ → ℤ → List Note
  | [], _, _ => []
  | n :: rest, 0, d => { n with duration := n.duration + d } :: rest
  | n :: rest, idx + 1, d => n :: extendDuration rest idx d

/-- One iteration of the event loop of `parse_notes_and_chords`: skip rests
and grace notes; merge a single-pitch note into its open tie chain or start a
new `Note`; append one independent `Chord` per chord event (its tie marker is
never consulted). -/
def pncStep (resolution : ℤ) (st : PNCState) (item : StreamItem) : PNCState :=
  match item with
  | .rest _ _ _ => st
  | .note offset quarterLength vel isGrace pitch tie =>
    if isGrace then st
    else
      let duration := pyRound (qmul quarterLength ((resolution : ℤ) : ℚ))
      match st.ties pitch with
      | some note_idx =>
        if isOutgoingTie tie then
          { st with notes := extendDuration st.notes note_idx duration,
                    ties := tiesInsert st.ties pitch note_idx }
        else
          { st with notes := extendDuration st.notes note_idx duration,
                    ties := tiesErase st.ties pitch }
      | none =>
        if isOutgoingTie tie then
          { st with
              notes := st.notes ++
                [{ time := pyRound (qmul offset ((resolution : ℤ) : ℚ)), pitch := pitch,
                   duration := duration, velocity := vel.map pyRound }],
              ties := tiesInsert st.ties pitch st.notes.length }
        else
          { st with
              notes := st.notes ++
                [{ time := pyRound (qmul offset ((resolution : ℤ) : ℚ)), pitch := pitch,
                   duration := duration, velocity := vel.map pyRound }] }
  | .chord offset quarterLength vel isGrace pitches _ =>
    if isGrace then st
    else
      { st with chords := st.chords ++
          [{ time := pyRound (qmul offset ((resolution : ℤ) : ℚ)), pitches := pitches,
             duration := pyRound (qmul quarterLength ((resolution : ℤ) : ℚ)),
             velocity := vel.map pyRound }] }

/-- The empty starting state of `parse_notes_and_chords`. -/
def pncInit : PNCState :=
  { notes := [], chords := [], ties := fun _ => none }

/-- The event loop of `parse_notes_and_chords` from an arbitrary state. -/
def pncRun (resolution : ℤ) (items : List StreamItem) (st : PNCState) : PNCState :=
  items.foldl (pncStep resolution) st

/-- `parse_notes_and_chords`: the notes (in note-append order) and chords (in
chord-append order) extracted from a flattened `notesAndRests` stream. -/
def parse_notes_and_chords (items : List StreamItem) (resolution : ℤ) :
    List Note × List Chord :=
  ((pncRun resolution items pncInit).notes, (pncRun resolution items pncInit).chords)

/-- `parse_track`: the notes/chords of a part together with its instrument's
program (default 0) and drum flag (MIDI channel 10) and the part's name. -/
def parse_track (part : M21Part) (resolution : ℤ) : Track :=
  { program :=
      match part.instrument.midiProgram with
      | some p => p
      | none => 0
    is_drum :=
      match part.instrument.midiChannel with
      | some c => c == 10
      | none => false
    name := part.partName
    notes := (parse_notes_and_chords part.notesAndRests resolution).1
    chords := (parse_notes_and_chords part.notesAndRests resolution).2 }

/-- `from_music21_part`: a single `Track` when `partitionByInstrument` is
falsy, else one `Track` per partitioned sub-part (the resolution argument is
forwarded in both cases). -/
def from_music21_part (part : M21PartP) (resolution : ℤ) : Sum Track (List Track) :=
  if part.partitioned.isEmpty then Sum.inl (parse_track part.self resolution)
  else Sum.inr (part.partitioned.map (fun instrument => parse_track instrument resolution))

/-- One iteration of the track-collection loop of `from_music21_score`: if
the partition is truthy, one track per sub-part; otherwise one track for the
whole part only when it has at least one note/rest event.  Both
`parse_track` calls of this loop omit the resolution argument in the source,
so they quantize at `DEFAULT_RESOLUTION`. -/
def scoreTracksOfPart (part : M21PartP) : List Track :=
  if ¬ part.partitioned.isEmpty then
    part.partitioned.map (fun instrument => parse_track instrument DEFAULT_RESOLUTION)
  else if 0 < part.self.notesAndRests.length then
    [parse_track part.self DEFAULT_RESOLUTION]
  else []

/-- `from_music21_score`: the assembled `Music` document.  As in the source,
the tracks and the tempos are computed without the resolution argument (so at
`DEFAULT_RESOLUTION`), while key signatures, time signatures and beats use
the passed resolution; the document's `resolution` field is always
`DEFAULT_RESOLUTION`.  `none` models a raised exception inside
`parse_beats`. -/
def from_music21_score (score : M21Score) (resolution : ℤ) : Option Music :=
  (parse_beats score.measureOffsets (parse_time_signatures score resolution)
      resolution).map (fun beats =>
    { metadata := parse_metadata score.meta
      resolution := DEFAULT_RESOLUTION
      tempos := parse_tempos score.metronomeMarkBoundaries DEFAULT_RESOLUTION
      key_signatures := parse_key_signatures score.keySignatureItems resolution
      time_signatures := parse_time_signatures score resolution
      beats := beats
      tracks := (score.parts.map scoreTracksOfPart).flatten })

/-- The list of tracks denoted by the `Union[Track, List[Track]]` return
value of `from_music21_part`. -/
def tracksOfUnion : Sum Track (List Track) → List Track
  | Sum.inl t => [t]
  | Sum.inr l => l

/-- Whether a stream event is a chord event (`item.isChord`). -/
def isChordEvent : StreamItem → Bool
  | .chord _ _ _ _ _ _ => true
  | _ => false

/-- The `Chord` record the chord branch of `parse_notes_and_chords` appends
for a stream event, if any: one independent record per non-grace chord
event, with that single event's own quantized time and duration (the event's
tie marker plays no role). -/
def chordOf (resolution : ℤ) : StreamItem → Option Chord
  | .chord offset quarterLength vel isGrace pitches _ =>
      if isGrace then none
      else some { time := pyRound (qmul offset ((resolution : ℤ) : ℚ)), pitches := pitches,
                  duration := pyRound (qmul quarterLength ((resolution : ℤ) : ℚ)),
                  velocity := vel.map pyRound }
  | _ => none

/-- A tie-chain fragment: its stream offset, its quarter length and its
optional velocity. -/
def TieFrag : Type := ℚ × ℚ × Option ℚ

/-- The single-pitch note event of a tie-chain fragment. -/
def fragNote (pitch : ℤ) (tie : Option String) (f : TieFrag) : StreamItem :=
  .note f.1 f.2.1 f.2.2 false pitch tie

/-- A complete tie chain at one pitch: a fragment with tie role "start",
any number of "continue" fragments, and a final "stop" fragment. -/
def chainStream (pitch : ℤ) (first : TieFrag) (mids : List TieFrag)
    (last : TieFrag) : List StreamItem :=
  fragNote pitch (some "start") first ::
    (mids.map (fragNote pitch (some "continue")) ++ [fragNote pitch (some "stop") last])

/-- An all-empty score used as a concrete conversion input. -/
def w2score : M21Score :=
  { meta := none, parts := [], metronomeMarkBoundaries := [],
    keySignatureItems := [], timeSignatureItems := [], measureOffsets := [] }

/-- A score whose only annotation is a tempo mark starting at offset 1. -/
def c3score : M21Score :=
  { meta := none, parts := [], metronomeMarkBoundaries := [(1, 2, 120)],
    keySignatureItems := [], timeSignatureItems := [(0, 4, 4)], measureOffsets := [] }

/-- An all-empty score used as a concrete conversion input. -/
def w3score : M21Score :=
  { meta := none, parts := [], metronomeMarkBoundaries := [],
    keySignatureItems := [], timeSignatureItems := [], measureOffsets := [] }

/-- The `Music` document `from_music21_score` produces for `w3score` (at any
resolution whose product with offset 0 rounds to tick 0). -/
def w3music : Music :=
  { metadata := none, resolution := 24, tempos := [], key_signatures := [],
    time_signatures := [⟨0, 4, 4⟩], beats := [], tracks := [] }

/-- A part with no note/rest events and no declared instrument data. -/
def c6part : M21Part :=
  { notesAndRests := [], instrument := ⟨none, none⟩, partName := none }

/-- A score with a single zero-event part for which the external instrument
partition nevertheless returns one (empty) sub-part. -/
def c6score : M21Score :=
  { meta := none, parts := [{ self := c6part, partitioned := [c6part] }],
    metronomeMarkBoundaries := [], keySignatureItems := [], timeSignatureItems := [],
    measureOffsets := [] }

/-- `a * (a.den : ℚ)` clears the denominator of a rational. -/
theorem rat_mul_den (a : ℚ) : a * ((a.den : ℕ) : ℚ) = ((a.num : ℤ) : ℚ) := by
  nth_rewrite 1 [← Rat.num_div_den a]
  exact div_mul_cancel₀ _ (by exact_mod_cast a.den_nz)

/-- `qmul` computes multiplication on `ℚ`. -/
theorem qmul_eq_mul (a b : ℚ) : qmul a b = a * b := by
  have ha : ((a.den : ℚ)) ≠ 0 := by exact_mod_cast a.den_nz
  have hb : ((b.den : ℚ)) ≠ 0 := by exact_mod_cast b.den_nz
  rw [qmul, Rat.divInt_eq_div]
  push_cast
  rw [div_eq_iff (mul_ne_zero ha hb), ← rat_mul_den a, ← rat_mul_den b]
  ring

/-- `qadd` computes addition on `ℚ`. -/
theorem qadd_eq_add (a b : ℚ) : qadd a b = a + b := by
  have ha : ((a.den : ℚ)) ≠ 0 := by exact_mod_cast a.den_nz
  have hb : ((b.den : ℚ)) ≠ 0 := by exact_mod_cast b.den_nz
  rw [qadd, Rat.divInt_eq_div]
  push_cast
  rw [div_eq_iff (mul_ne_zero ha hb), ← rat_mul_den a, ← rat_mul_den b]
  ring

/-- `qsub` computes subtraction on `ℚ`. -/
theorem qsub_eq_sub (a b : ℚ) : qsub a b = a - b := by
  have ha : ((a.den : ℚ)) ≠ 0 := by exact_mod_cast a.den_nz
  have hb : ((b.den : ℚ)) ≠ 0 := by exact_mod_cast b.den_nz
  rw [qsub, Rat.divInt_eq_div]
  push_cast
  rw [div_eq_iff (mul_ne_zero ha hb), ← rat_mul_den a, ← rat_mul_den b]
  ring

/-- `qdiv` computes division on `ℚ` (with the `x / 0 = 0` convention). -/
theorem qdiv_eq_div (a b : ℚ) : qdiv a b = a / b := by
  have ha : ((a.den : ℚ)) ≠ 0 := by exact_mod_cast a.den_nz
  rcases eq_or_ne b 0 with hb0 | hb0
  · subst hb0
    rw [qdiv]
    norm_num
  · have hb : ((b.den : ℚ)) ≠ 0 := by exact_mod_cast b.den_nz
    have hnb0 : ((b.num : ℚ)) ≠ 0 := by exact_mod_cast Rat.num_ne_zero.mpr hb0
    rw [qdiv, Rat.divInt_eq_div]
    push_cast
    rw [div_eq_div_iff (mul_ne_zero ha hnb0) hb0, ← rat_mul_den a, ← rat_mul_den b]
    ring

/-- `measureBeats` never fails when the resolution is non-zero and the
governing signature has non-zero numerator and denominator. -/
theorem measureBeats_isSome (time_sign : TimeSignature) (resolution : ℤ) (start : ℤ)
    (endTick : ℚ) (hr : resolution ≠ 0) (hnum : time_sign.numerator ≠ 0)
    (hden : time_sign.denominator ≠ 0) :
    (measureBeats time_sign resolution start endTick).isSome := by
  have hden4 : qdiv ((time_sign.denominator : ℤ) : ℚ) 4 ≠ 0 := by
    rw [qdiv_eq_div]
    simp [div_eq_zero_iff]
    exact_mod_cast hden
  have hbr : beatResolutionOf time_sign resolution ≠ 0 := by
    rw [beatResolutionOf, qdiv_eq_div]
    simp [div_eq_zero_iff, hden4]
    exact_mod_cast hr
  rw [measureBeats, if_neg hden4, if_neg hbr,
    if_neg (by intro h; exact hnum h.1)]
  rfl

/-- The `parse_beats` loop runs to completion (no exception) when every time
signature is well-formed, the signature list is non-empty and the resolution
is non-zero, given enough fuel; the measure
`downbeats.length - downbeat_idx + (ts.length - time_sign_idx)` strictly
decreases at every iteration. -/
theorem parse_beats_go_isSome (downbeats : List ℤ) (ts : List TimeSignature)
    (resolution : ℤ) (hr : resolution ≠ 0)
    (hgood : ∀ s ∈ ts, s.numerator ≠ 0 ∧ s.denominator ≠ 0) :
    ∀ fuel dIdx tIdx, tIdx < ts.length →
      downbeats.length - dIdx + (ts.length - tIdx) < fuel →
      (parse_beats_go downbeats ts resolution fuel dIdx tIdx).isSome := by
  intro fuel
  induction fuel with
  | zero => intro dIdx tIdx ht hm; omega
  | succ fuel ih =>
    intro dIdx tIdx ht hm
    rw [parse_beats_go]
    by_cases hd : dIdx < downbeats.length
    · rw [dif_pos hd]
      by_cases hadv : tIdx < ts.length - 1 ∧
          (ts.getD tIdx ⟨0, 0, 0⟩).time ≤ downbeats[dIdx]
      · rw [if_pos hadv]
        exact ih dIdx (tIdx + 1) (by omega) (by omega)
      · rw [if_neg hadv]
        rw [List.getElem?_eq_getElem ht, Option.some_bind]
        have hsign := hgood (ts[tIdx]) (List.getElem_mem ht)
        obtain ⟨mbs, hmbs⟩ := Option.isSome_iff_exists.mp
          (measureBeats_isSome (ts[tIdx]) resolution (downbeats[dIdx])
            (measureEnd downbeats dIdx (ts[tIdx]) resolution (downbeats[dIdx]))
            hr hsign.1 hsign.2)
        rw [hmbs, Option.some_bind]
        obtain ⟨rest, hrest⟩ := Option.isSome_iff_exists.mp
          (ih (dIdx + 1) tIdx ht (by omega))
        rw [hrest]
        rfl
    · rw [dif_neg hd]
      rfl

/-- `parse_beats` returns a result for every measure map whenever the
time-signature list is non-empty and well-formed and the resolution is
non-zero (the fuel supplied by `parse_beats` is sufficient). -/
theorem parse_beats_isSome (measureOffsets : List ℚ) (ts : List TimeSignature)
    (resolution : ℤ) (hr : resolution ≠ 0) (hne : ts ≠ [])
    (hgood : ∀ s ∈ ts, s.numerator ≠ 0 ∧ s.denominator ≠ 0) :
    (parse_beats measureOffsets ts resolution).isSome := by
  rw [parse_beats]
  exact parse_beats_go_isSome _ _ _ hr hgood _ 0 0
    (List.length_pos.mpr hne) (by omega)

/-- For a score with no explicit time-signature annotation,
`parse_time_signatures` yields exactly the synthesized default 4/4 at tick
0. -/
theorem pts_default (score : M21Score) (r : ℤ) (hts : score.timeSignatureItems = []) :
    parse_time_signatures score r = [⟨0, 4, 4⟩] := by
  have h0 : pyRound (qmul 0 ((r : ℤ) : ℚ)) = 0 := by
    rw [qmul_eq_mul, zero_mul]
    decide
  rw [parse_time_signatures, getTimeSignatures, hts]
  simp [dedupSortByTime, h0]

/-- C1: beat grid under meter change, evaluated as the code computes it.
With time signatures 4/4 at tick 0 and 3/4 at tick 96 (resolution 24) and
measure starts 0, 96, 168 (offsets 0, 4, 7), `parse_beats` emits a beat grid
whose tick-72 beat is a downbeat: the cursor-advance test compares the
current measure start with the *current* signature's activation time, so the
first measure is governed by the 3/4 signature (the 4/4 entry is skipped at
once), contradicting the claim that beats 0, 24, 48, 72 are governed by 4/4
with a downbeat at 0 only. -/
theorem c1_parse_beats_meter_change_code_behavior :
    parse_beats [0, 4, 7] [⟨0, 4, 4⟩, ⟨96, 3, 4⟩] 24 =
      some [⟨0, true⟩, ⟨24, false⟩, ⟨48, false⟩, ⟨72, true⟩, ⟨96, true⟩,
        ⟨120, false⟩, ⟨144, false⟩, ⟨168, true⟩, ⟨192, false⟩, ⟨216, false⟩] := by
  decide

/-- C8: beat grid coverage under a single 4/4 time signature at resolution
24 with measure starts at ticks 0 and 96: exactly 8 beats at ticks 0, 24,
48, 72, 96, 120, 144, 168, downbeats exactly at the measure starts 0 and
96. -/
theorem c8_beat_grid_single_signature :
    parse_beats [0, 4] [⟨0, 4, 4⟩] 24 =
      some [⟨0, true⟩, ⟨24, false⟩, ⟨48, false⟩, ⟨72, false⟩, ⟨96, true⟩,
        ⟨120, false⟩, ⟨144, false⟩, ⟨168, false⟩] := by
  decide

/-- C2 counterexample: `parse_beats` applied directly to an empty
time-signature list with a non-empty measure map does not return a result —
it raises (`IndexError` on `time_signatures[time_sign_idx]`, modelled as
`none`), contrary to the claim that it never raises. -/
theorem c2_parse_beats_empty_signatures_raises :
    parse_beats [0] [] 24 = none := by
  decide

/-- C2 amended: a score with no time-signature annotation converts without
failing — the external `getTimeSignatures` (modelled from the spec) supplies
the documented default, a single 4/4 entry at tick 0, and with that
`from_music21_score` returns a document whose time-signature list is exactly
that default; `parse_beats` itself, however, fails on an empty
time-signature list (see the counterexample). -/
theorem c2_default_time_signature_conversion (score : M21Score) (r : ℤ) (hr : 0 < r)
    (hts : score.timeSignatureItems = []) :
    ∃ m, from_music21_score score r = some m ∧ m.time_signatures = [⟨0, 4, 4⟩] := by
  have hts_eq := pts_default score r hts
  have hsome := parse_beats_isSome score.measureOffsets [⟨0, 4, 4⟩] r
    (by omega) (by simp)
    (by intro s hs; rw [List.mem_singleton] at hs; subst hs; exact ⟨by decide, by decide⟩)
  obtain ⟨beats, hbeats⟩ := Option.isSome_iff_exists.mp hsome
  refine ⟨⟨parse_metadata score.meta, DEFAULT_RESOLUTION,
      parse_tempos score.metronomeMarkBoundaries DEFAULT_RESOLUTION,
      parse_key_signatures score.keySignatureItems r,
      [⟨0, 4, 4⟩], beats, (score.parts.map scoreTracksOfPart).flatten⟩, ?_, rfl⟩
  rw [from_music21_score, hts_eq, hbeats]
  rfl

/-- C2 witness: the amended theorem applied to a concrete score with no
time-signature annotation at resolution 24. -/
theorem c2_default_time_signature_conversion_witness :
    ∃ m, from_music21_score w2score 24 = some m ∧ m.time_signatures = [⟨0, 4, 4⟩] :=
  c2_default_time_signature_conversion w2score 24 (by decide) rfl

/-- C3 counterexample: converting at resolution 48 a score whose only tempo
mark starts at offset 1, the resulting tempo is at tick 24 — `parse_tempos`
is called without forwarding the resolution, so tempo times (like all track
note/chord times) are quantized at `DEFAULT_RESOLUTION` 24, not at the
passed resolution 48, under which offset 1 would be tick 48. -/
theorem c3_mixed_resolution_counterexample :
    (from_music21_score c3score 48).map Music.tempos = some [⟨24, 120⟩] ∧
    pyRound (qmul 1 ((48 : ℤ) : ℚ)) = 48 ∧ (24 : ℤ) ≠ 48 := by
  refine ⟨by decide, by decide, by decide⟩

/-- C3 amended: in `from_music21_score score r` the tempos and the tracks
are computed without the resolution argument and therefore do not depend on
`r` (they always use `DEFAULT_RESOLUTION`), while the key signatures and the
time signatures are quantized at `r`; the document's `resolution` field is
always `DEFAULT_RESOLUTION`.  All tick values agree with the claim only when
`r = DEFAULT_RESOLUTION`. -/
theorem c3_resolution_usage (score : M21Score) (r : ℤ) (m mdef : Music)
    (h : from_music21_score score r = some m)
    (hdef : from_music21_score score DEFAULT_RESOLUTION = some mdef) :
    m.tempos = mdef.tempos ∧ m.tracks = mdef.tracks ∧
    m.resolution = DEFAULT_RESOLUTION ∧
    m.key_signatures = parse_key_signatures score.keySignatureItems r ∧
    m.time_signatures = parse_time_signatures score r := by
  rw [from_music21_score] at h hdef
  obtain ⟨b1, hb1, he1⟩ := Option.map_eq_some'.mp h
  obtain ⟨b2, hb2, he2⟩ := Option.map_eq_some'.mp hdef
  subst he1
  subst he2
  exact ⟨rfl, rfl, rfl, rfl, rfl⟩

/-- C3 witness: the amended theorem applied to a concrete score converted at
resolution 48 and at the default resolution. -/
theorem c3_resolution_usage_witness :
    w3music.tempos = w3music.tempos ∧ w3music.tracks = w3music.tracks ∧
    w3music.resolution = DEFAULT_RESOLUTION ∧
    w3music.key_signatures = parse_key_signatures w3score.keySignatureItems 48 ∧
    w3music.time_signatures = parse_time_signatures w3score 48 :=
  c3_resolution_usage w3score 48 w3music w3music (by decide) (by decide)

/-- Dedup-then-stable-sort yields a list sorted by the key with pairwise
distinct records. -/
theorem dedupSortByTime_sorted_nodup {α : Type} [DecidableEq α] (time : α → ℤ)
    (l : List α) :
    List.Sorted (fun a b => time a ≤ time b) (dedupSortByTime time l) ∧
    (dedupSortByTime time l).Nodup := by
  constructor
  · haveI ht : IsTotal α (fun a b => time a ≤ time b) := ⟨fun a b => le_total _ _⟩
    haveI htr : IsTrans α (fun a b => time a ≤ time b) :=
      ⟨fun a b c hab hbc => le_trans hab hbc⟩
    exact List.sorted_insertionSort _ _
  · exact ((List.perm_insertionSort _ _).symm).nodup (List.nodup_dedup l)

/-- C5 counterexample: two metronome marks at offsets 0 and 1/100 with
different BPM both round to tick 0 at resolution 24, so `parse_tempos`
returns two distinct records with equal time — the output is NOT strictly
sorted by time (only nondecreasingly sorted). -/
theorem c5_not_strictly_sorted_counterexample :
    parse_tempos [(0, 1, 120), (Rat.divInt 1 100, 2, 90)] 24 = [⟨0, 120⟩, ⟨0, 90⟩] ∧
    ¬ List.Pairwise (fun a b : Tempo => a.time < b.time)
        (parse_tempos [(0, 1, 120), (Rat.divInt 1 100, 2, 90)] 24) := by
  refine ⟨by decide, by decide⟩

/-- C5 amended: each of `parse_tempos`, `parse_key_signatures` and
`parse_time_signatures` returns a list sorted in NONDECREASING time order
whose records are pairwise distinct (strict time sortedness fails when two
distinct records share a tick); the extraction is a pure function of its
input, hence deterministic and idempotent. -/
theorem c5_sorted_nodup (boundaries : List (ℚ × ℚ × ℚ)) (ksItems : List KSItem)
    (score : M21Score) (r : ℤ) :
    (List.Sorted (fun a b : Tempo => a.time ≤ b.time) (parse_tempos boundaries r) ∧
      (parse_tempos boundaries r).Nodup) ∧
    (List.Sorted (fun a b : KeySignature => a.time ≤ b.time)
        (parse_key_signatures ksItems r) ∧
      (parse_key_signatures ksItems r).Nodup) ∧
    (List.Sorted (fun a b : TimeSignature => a.time ≤ b.time)
        (parse_time_signatures score r) ∧
      (parse_time_signatures score r).Nodup) :=
  ⟨dedupSortByTime_sorted_nodup Tempo.time _,
   dedupSortByTime_sorted_nodup KeySignature.time _,
   dedupSortByTime_sorted_nodup TimeSignature.time _⟩

/-- C6 counterexample: a score whose only part has zero note/rest events but
whose external instrument partition returns one (empty) sub-part still
contributes a `Track` at score level — the `len(part.flat.notesAndRests) > 0`
guard is only consulted in the unpartitioned branch, so the claim that a
zero-event part never produces a `Track` fails. -/
theorem c6_empty_part_with_partition_counterexample :
    c6score.parts.all (fun p => p.self.notesAndRests.isEmpty) = true ∧
    (from_music21_score c6score 24).map Music.tracks = some [⟨0, false, none, [], []⟩] ∧
    ([⟨0, false, none, [], []⟩] : List Track) ≠ [] := by
  refine ⟨by decide, by decide, by decide⟩

/-- C6 amended: at score level a part contributes no `Track` exactly when
the external instrument partition is empty (falsy) AND the part has zero
note/rest events; when the partition returns sub-parts, (possibly empty)
tracks are emitted regardless.  A part-level call (`from_music21_part`)
never drops: it always yields at least one `Track`. -/
theorem c6_empty_part_drop (p : M21PartP) (r : ℤ) :
    (scoreTracksOfPart p = [] ↔ p.partitioned = [] ∧ p.self.notesAndRests = []) ∧
    1 ≤ (tracksOfUnion (from_music21_part p r)).length := by
  constructor
  · rw [scoreTracksOfPart]
    rcases hp : p.partitioned with _ | ⟨a, l⟩
    · simp only [List.isEmpty_nil, not_true_eq_false, if_false]
      rcases hn : p.self.notesAndRests with _ | ⟨b, m⟩
      · simp
      · simp
    · simp
  · rw [from_music21_part]
    rcases hp : p.partitioned with _ | ⟨a, l⟩
    · simp [tracksOfUnion]
    · simp [tracksOfUnion]

/-- C9: for every part and resolution, the track's `program` equals the
instrument's declared MIDI program and defaults to 0 when it is absent, and
`is_drum` holds exactly when the instrument's MIDI channel is declared and
equal to 10 (false when absent or any other value). -/
theorem c9_track_instrument_defaults (part : M21Part) (r : ℤ) :
    (parse_track part r).program = part.instrument.midiProgram.getD 0 ∧
    ((parse_track part r).is_drum = true ↔ part.instrument.midiChannel = some 10) := by
  constructor
  · rw [parse_track]
    rcases part.instrument.midiProgram with _ | p
    · rfl
    · rfl
  · rw [parse_track]
    rcases hc : part.instrument.midiChannel with _ | c
    · simp
    · simp [beq_iff_eq]

/-- One loop iteration appends exactly the chord record of the event (if
it is a non-grace chord event) and nothing else to the chords list. -/
theorem pncStep_chords (r : ℤ) (st : PNCState) (item : StreamItem) :
    (pncStep r st item).chords = st.chords ++ (chordOf r item).toList := by
  cases item with
  | rest o q g => simp [pncStep, chordOf]
  | note o q v g p t =>
    cases g with
    | false =>
      simp only [pncStep, chordOf, Bool.false_eq_true, if_false]
      rcases h : st.ties p with _ | idx <;> simp [h] <;> split <;> simp
    | true => simp [pncStep, chordOf]
  | chord o q v g ps t =>
    cases g with
    | false => simp [pncStep, chordOf]
    | true => simp [pncStep, chordOf]

/-- The notes and open-ties components of one loop iteration depend only on
the notes and open-ties components of the state (never on the chords). -/
theorem pncStep_notes_ties_congr (r : ℤ) (item : StreamItem) (st st' : PNCState)
    (hn : st.notes = st'.notes) (ht : st.ties = st'.ties) :
    (pncStep r st item).notes = (pncStep r st' item).notes ∧
    (pncStep r st item).ties = (pncStep r st' item).ties := by
  cases item with
  | rest o q g => exact ⟨hn, ht⟩
  | note o q v g p t =>
    cases g with
    | false =>
      simp only [pncStep, Bool.false_eq_true, if_false, hn, ht]
      rcases h : st'.ties p with _ | idx
      · cases hob : isOutgoingTie t <;> simp [h, hob]
      · cases hob : isOutgoingTie t <;> simp [h, hob]
    | true => exact ⟨hn, ht⟩
  | chord o q v g ps t =>
    cases g with
    | false => exact ⟨hn, ht⟩
    | true => exact ⟨hn, ht⟩

/-- The chords accumulated by the event loop are exactly the chord records
of the non-grace chord events, in stream order. -/
theorem pncRun_chords (r : ℤ) :
    ∀ (items : List StreamItem) (st : PNCState),
      (pncRun r items st).chords = st.chords ++ items.filterMap (chordOf r) := by
  intro items
  induction items with
  | nil => intro st; simp [pncRun]
  | cons i rest ih =>
    intro st
    rw [pncRun, List.foldl_cons]
    rw [show List.foldl (pncStep r) (pncStep r st i) rest = pncRun r rest (pncStep r st i) from rfl]
    rw [ih, pncStep_chords, List.filterMap_cons]
    rcases h : chordOf r i with _ | c
    · simp
    · simp

/-- Chord events do not influence the notes list or the open-ties table:
running the loop with all chord events removed yields the same notes and
ties. -/
theorem pncRun_filter_nonchord (r : ℤ) :
    ∀ (items : List StreamItem) (st st' : PNCState),
      st.notes = st'.notes → st.ties = st'.ties →
      (pncRun r items st).notes =
        (pncRun r (items.filter (fun i => !isChordEvent i)) st').notes ∧
      (pncRun r items st).ties =
        (pncRun r (items.filter (fun i => !isChordEvent i)) st').ties := by
  intro items
  induction items with
  | nil => intro st st' hn ht; exact ⟨hn, ht⟩
  | cons i rest ih =>
    intro st st' hn ht
    by_cases hc : isChordEvent i = true
    · have hfilter : (i :: rest).filter (fun i => !isChordEvent i) =
        rest.filter (fun i => !isChordEvent i) := by
        simp [List.filter_cons, hc]
      rw [hfilter, pncRun, List.foldl_cons]
      have hstep : (pncStep r st i).notes = st'.notes ∧ (pncStep r st i).ties = st'.ties := by
        cases i with
        | chord o q v g ps t =>
          cases g with
          | false => exact ⟨hn, ht⟩
          | true => exact ⟨hn, ht⟩
        | rest o q g => simp [isChordEvent] at hc
        | note o q v g p t => simp [isChordEvent] at hc
      exact ih (pncStep r st i) st' hstep.1 hstep.2
    · have hfilter : (i :: rest).filter (fun i => !isChordEvent i) =
        i :: rest.filter (fun i => !isChordEvent i) := by
        simp [List.filter_cons, hc]
      rw [hfilter, pncRun, List.foldl_cons, pncRun, List.foldl_cons]
      have hstep := pncStep_notes_ties_congr r i st st' hn ht
      exact ih (pncStep r st i) (pncStep r st' i) hstep.1 hstep.2

/-- C7: chord independence.  For every stream and resolution, (a) the chords
output of `parse_notes_and_chords` has exactly one independent `Chord` per
non-grace chord event — tied or not — whose time and duration are that
single event's own quantized values (`chordOf`), in stream order; (b) chords
are never merged across ties and never affect the notes output; (c) chord
events never affect the open-ties table used for single-pitch notes. -/
theorem c7_chord_independence (items : List StreamItem) (r : ℤ) :
    (parse_notes_and_chords items r).2 = items.filterMap (chordOf r) ∧
    (parse_notes_and_chords items r).1 =
      (parse_notes_and_chords (items.filter (fun i => !isChordEvent i)) r).1 ∧
    (pncRun r items pncInit).ties =
      (pncRun r (items.filter (fun i => !isChordEvent i)) pncInit).ties := by
  refine ⟨?_, ?_, ?_⟩
  · rw [parse_notes_and_chords]
    simp only [pncRun_chords r items pncInit]
    simp [pncInit]
  · exact (pncRun_filter_nonchord r items pncInit pncInit rfl rfl).1
  · exact (pncRun_filter_nonchord r items pncInit pncInit rfl rfl).2

/-- Re-assigning an open-ties entry to the value it already has is the
identity. -/
theorem tiesInsert_insert (ties : ℤ → Option ℕ) (p : ℤ) (i : ℕ) :
    tiesInsert (tiesInsert ties p i) p i = tiesInsert ties p i := by
  funext x
  simp only [tiesInsert]
  by_cases h : x = p <;> simp [h]

/-- Running the loop over the "continue" fragments of a tie chain only adds
the fragments' quantized durations to the single open note; the chords and
the open-ties table are untouched. -/
theorem pncRun_chain_mid (r : ℤ) (p : ℤ) :
    ∀ (mids : List TieFrag) (n0 : Note) (c : List Chord),
      pncRun r (mids.map (fragNote p (some "continue")))
          ⟨[n0], c, tiesInsert (fun _ => none) p 0⟩ =
        ⟨[{ n0 with duration := n0.duration +
            (mids.map (fun f => pyRound (qmul f.2.1 ((r : ℤ) : ℚ)))).sum }], c,
          tiesInsert (fun _ => none) p 0⟩ := by
  intro mids
  induction mids with
  | nil =>
    intro n0 c
    cases n0
    simp [pncRun]
  | cons f rest ih =>
    intro n0 c
    rw [List.map_cons, pncRun, List.foldl_cons]
    have hstep : pncStep r ⟨[n0], c, tiesInsert (fun _ => none) p 0⟩
        (fragNote p (some "continue") f) =
        ⟨[{ n0 with duration := n0.duration + pyRound (qmul f.2.1 ((r : ℤ) : ℚ)) }], c,
          tiesInsert (fun _ => none) p 0⟩ := by
      simp [pncStep, fragNote, isOutgoingTie, tiesInsert_insert, tiesInsert,
        extendDuration]
    rw [hstep]
    rw [show List.foldl (pncStep r) _ (rest.map (fragNote p (some "continue"))) =
      pncRun r (rest.map (fragNote p (some "continue")))
        ⟨[{ n0 with duration := n0.duration + pyRound (qmul f.2.1 ((r : ℤ) : ℚ)) }], c,
          tiesInsert (fun _ => none) p 0⟩ from rfl]
    rw [ih]
    simp [add_assoc]

/-- Full characterization of the loop on a complete tie chain: a single
note carrying the first fragment's time, pitch and velocity, whose duration
is the sum of all the fragments' quantized durations; no chords. -/
theorem pncRun_chain (r : ℤ) (p : ℤ) (first : TieFrag) (mids : List TieFrag)
    (last : TieFrag) :
    (pncRun r (chainStream p first mids last) pncInit).notes =
      [{ time := pyRound (qmul first.1 ((r : ℤ) : ℚ)), pitch := p,
         duration := pyRound (qmul first.2.1 ((r : ℤ) : ℚ)) +
           (mids.map (fun f => pyRound (qmul f.2.1 ((r : ℤ) : ℚ)))).sum +
           pyRound (qmul last.2.1 ((r : ℤ) : ℚ)),
         velocity := first.2.2.map pyRound }] ∧
    (pncRun r (chainStream p first mids last) pncInit).chords = [] := by
  rw [chainStream, pncRun, List.foldl_cons]
  have h1 : pncStep r pncInit (fragNote p (some "start") first) =
      ⟨[{ time := pyRound (qmul first.1 ((r : ℤ) : ℚ)), pitch := p,
          duration := pyRound (qmul first.2.1 ((r : ℤ) : ℚ)),
          velocity := first.2.2.map pyRound }], [],
        tiesInsert (fun _ => none) p 0⟩ := by
    simp [pncStep, fragNote, pncInit, isOutgoingTie, tiesInsert]
  rw [h1, List.foldl_append]
  rw [show List.foldl (pncStep r) _ (mids.map (fragNote p (some "continue"))) =
    pncRun r (mids.map (fragNote p (some "continue")))
      ⟨[{ time := pyRound (qmul first.1 ((r : ℤ) : ℚ)), pitch := p,
          duration := pyRound (qmul first.2.1 ((r : ℤ) : ℚ)),
          velocity := first.2.2.map pyRound }], [],
        tiesInsert (fun _ => none) p 0⟩ from rfl]
  rw [pncRun_chain_mid]
  simp only [List.foldl_cons, List.foldl_nil]
  have hstop : pncStep r
      ⟨[{ time := pyRound (qmul first.1 ((r : ℤ) : ℚ)), pitch := p,
          duration := pyRound (qmul first.2.1 ((r : ℤ) : ℚ)) +
            (mids.map (fun f => pyRound (qmul f.2.1 ((r : ℤ) : ℚ)))).sum,
          velocity := first.2.2.map pyRound }], [],
        tiesInsert (fun _ => none) p 0⟩ (fragNote p (some "stop") last) =
      ⟨[{ time := pyRound (qmul first.1 ((r : ℤ) : ℚ)), pitch := p,
          duration := pyRound (qmul first.2.1 ((r : ℤ) : ℚ)) +
            (mids.map (fun f => pyRound (qmul f.2.1 ((r : ℤ) : ℚ)))).sum +
            pyRound (qmul last.2.1 ((r : ℤ) : ℚ)),
          velocity := first.2.2.map pyRound }], [],
        tiesErase (tiesInsert (fun _ => none) p 0) p⟩ := by
    simp [pncStep, fragNote, isOutgoingTie, tiesInsert, extendDuration]
  rw [hstop]
  exact ⟨rfl, rfl⟩

/-- C4: tie merging.  For every pitch, resolution and tie chain of
arbitrary length — a "start" fragment, any list of "continue" fragments and
a "stop" fragment, each with arbitrary offset, duration and velocity —
`parse_notes_and_chords` yields exactly one `Note` for the chain, with time
equal to the first fragment's quantized time and duration equal to the sum
of every fragment's quantized duration (for the 3-fragment chain
(d1, d2, d3) this is quantize d1 + quantize d2 + quantize d3, the quantized
total duration of the chain), and no chords. -/
theorem c4_tie_chain_merging (r : ℤ) (p : ℤ) (first : TieFrag) (mids : List TieFrag)
    (last : TieFrag) :
    parse_notes_and_chords (chainStream p first mids last) r =
      ([{ time := pyRound (qmul first.1 ((r : ℤ) : ℚ)), pitch := p,
          duration := pyRound (qmul first.2.1 ((r : ℤ) : ℚ)) +
            (mids.map (fun f => pyRound (qmul f.2.1 ((r : ℤ) : ℚ)))).sum +
            pyRound (qmul last.2.1 ((r : ℤ) : ℚ)),
          velocity := first.2.2.map pyRound }], []) := by
  rw [parse_notes_and_chords, (pncRun_chain r p first mids last).1,
    (pncRun_chain r p first mids last).2]

/-- C10: when tie fragments are merged into a single `Note`, the note's
time, pitch and velocity are taken exclusively from the first fragment of
the chain: the result below does not depend on the offsets or velocities of
the continuation and closing fragments, which are discarded even when they
differ from the first fragment's (only their durations are accumulated, per
the C4 theorem). -/
theorem c10_tie_attributes_from_first_fragment (r : ℤ) (p : ℤ) (first : TieFrag) (mids : List TieFrag)
    (last : TieFrag) :
    (parse_notes_and_chords (chainStream p first mids last) r).1.map Note.time =
      [pyRound (qmul first.1 ((r : ℤ) : ℚ))] ∧
    (parse_notes_and_chords (chainStream p first mids last) r).1.map Note.pitch = [p] ∧
    (parse_notes_and_chords (chainStream p first mids last) r).1.map Note.velocity =
      [first.2.2.map pyRound] := by
  rw [parse_notes_and_chords]
  simp [(pncRun_chain r p first mids last).1]
